import Mathlib

/-!
Verification development for the Vent journaling/mood-tracking backend.

The definitions below are a shallow embedding of the backend's data model and
request handlers (Mongoose models, Express controllers and middleware):

* `backend/models/RefreshToken.js`, `backend/models/User.js`,
  `backend/models/Entry.js`, `backend/models/Mood.js`, `backend/models/MoodType.js`
* `backend/controllers/authController.js` (refresh, forgotPassword, resetPassword)
* `backend/controllers/userController.js` (changePassword)
* `backend/middleware/auth.js` (protect)
* the entry controller (getEntries, getEntryCategories, createEntry,
  updateEntry, deleteEntry) and the mood controller (getMoodTypes,
  getMoodStats, getMoodCalendar) in the revision of `src/unnamed/part_006`;
  an older generation of the mood controller kept under
  `backend/controllers/moodController.js` differs only in reporting a single
  `mostFrequentMood` instead of the tie-aware `mostFrequentMoods` list

Identifiers (Mongo ObjectIds) and opaque token strings are modelled as natural
numbers; timestamps as integers (milliseconds); fresh id/token generation as a
monotone counter `nextId` threaded through the state.  Crypto (JWT signing,
bcrypt) and I/O (email dispatch) are external collaborators: JWT verification is
a parameter of `protect`, email success is a boolean parameter of
`forgotPassword`.
-/

namespace Vent

/-! ## Data model -/

/-- A row of the RefreshToken collection (`backend/models/RefreshToken.js`):
token string, owning user, expiry timestamp. -/
structure TokenRow where
  rowId : Nat
  token : Nat
  userId : Nat
  expiresAt : Int
  deriving DecidableEq, Repr

/-- A User document (`backend/models/User.js`): email, password (hash-at-rest is
an external collaborator, so the stored credential is compared directly), and
the optional password-reset token hash plus expiry used by forgot/reset. -/
structure UserRec where
  id : Nat
  email : String
  password : String
  passwordResetToken : Option Nat := none
  passwordResetExpires : Option Int := none
  deriving DecidableEq, Repr

/-- The auth-relevant database state: the Users collection, the RefreshToken
ledger, and a counter supplying fresh ids and token strings. -/
structure AuthDB where
  users : List UserRec
  ledger : List TokenRow
  nextId : Nat
  deriving DecidableEq, Repr

/-- Refresh-token time-to-live: `addDays(new Date(), 7)` in milliseconds
(`JWT_REFRESH_EXPIRES_IN_DAYS` defaulting to 7). -/
def refreshTtlMs : Int := 7 * 24 * 60 * 60 * 1000

/-- `generateTokens` (`backend/utils/generateToken.js`): mints a signed access
and refresh token for a user.  Signing is external; what matters here is that
the two outputs are fresh strings, modelled by consuming the counter. -/
def generateTokens (nextId : Nat) : Nat × Nat :=
  (nextId, nextId + 1)

/-! ## Refresh transition (`authController.refresh`, lines 96-138) -/

inductive AuthErr where
  | missingToken
  | invalidOrExpired
  | userGone
  deriving DecidableEq, Repr

inductive RefreshResult where
  | ok (accessToken refreshToken : Nat)
  | failed (status : Nat) (err : AuthErr)
  deriving DecidableEq, Repr

/-- `exports.refresh`: look the presented string up in the ledger; absent row →
401; present but expired → delete the row, 401; owning user gone → delete the
row, 401; otherwise mint a new pair, delete the old row, insert a row for the
new refresh token. -/
def refresh (db : AuthDB) (now : Int) (refreshToken : Option Nat) :
    RefreshResult × AuthDB :=
  match refreshToken with
  | none => (.failed 400 .missingToken, db)
  | some tok =>
    match db.ledger.find? (fun r => r.token == tok) with
    | none => (.failed 401 .invalidOrExpired, db)
    | some tokenRecord =>
      if tokenRecord.expiresAt < now then
        (.failed 401 .invalidOrExpired,
         { db with ledger := db.ledger.filter (fun r => r.rowId ≠ tokenRecord.rowId) })
      else
        match db.users.find? (fun u => u.id == tokenRecord.userId) with
        | none =>
          (.failed 401 .userGone,
           { db with ledger := db.ledger.filter (fun r => r.rowId ≠ tokenRecord.rowId) })
        | some user =>
          let (newAccessToken, newRefreshToken) := generateTokens db.nextId
          let afterDelete := db.ledger.filter (fun r => r.rowId ≠ tokenRecord.rowId)
          (.ok newAccessToken newRefreshToken,
           { users := db.users
             ledger := afterDelete ++
               [{ rowId := db.nextId + 2
                  token := newRefreshToken
                  userId := user.id
                  expiresAt := now + refreshTtlMs }]
             nextId := db.nextId + 3 })

/-- Well-formedness of the auth state: ledger row ids and token strings are
unique (the schema declares `token` unique), and all ids/tokens already used are
below the freshness counter. -/
def AuthDB.wf (db : AuthDB) : Prop :=
  db.ledger.Pairwise (fun a b => a.rowId ≠ b.rowId) ∧
  db.ledger.Pairwise (fun a b => a.token ≠ b.token) ∧
  (∀ r ∈ db.ledger, r.rowId < db.nextId ∧ r.token < db.nextId)

/-! ## Password change and reset -/

inductive ChangeResult where
  | ok
  | failed (status : Nat)
  deriving DecidableEq, Repr

/-- `userController.changePassword` (lines 92-126): verify the current
password, check the confirmation and the length rule, store the new password.
The function does not touch the RefreshToken ledger (the source comments that
the existing tokens remain valid until expiry). -/
def changePassword (db : AuthDB) (uid : Nat)
    (currentPassword newPassword confirmPassword : String) :
    ChangeResult × AuthDB :=
  match db.users.find? (fun u => u.id == uid) with
  | none => (.failed 500, db)
  | some user =>
    if currentPassword == "" || ¬ (currentPassword == user.password) then
      (.failed 401, db)
    else if newPassword == "" || confirmPassword == "" ||
        ¬ (newPassword == confirmPassword) then
      (.failed 400, db)
    else if newPassword.length < 8 then
      (.failed 400, db)
    else
      (.ok,
       { db with users := db.users.map (fun u =>
           if u.id == uid then { u with password := newPassword } else u) })

inductive ResetResult where
  | ok (accessToken refreshToken : Nat)
  | failed (status : Nat)
  deriving DecidableEq, Repr

/-- `authController.resetPassword` (lines 212-250): find the user whose stored
reset-token hash matches and whose expiry is still in the future; set the new
password and clear the reset fields; delete every ledger row of that user
(`RefreshToken.deleteMany({ user })`); then issue a fresh session
(`sendTokenResponse`: `generateTokens` plus one `RefreshToken.create`). -/
def resetPassword (db : AuthDB) (now : Int) (hashedToken : Nat)
    (password passwordConfirm : String) : ResetResult × AuthDB :=
  match db.users.find? (fun u =>
      u.passwordResetToken == some hashedToken &&
      match u.passwordResetExpires with
      | some e => now < e
      | none => false) with
  | none => (.failed 400, db)
  | some user =>
    if password == "" || passwordConfirm == "" then (.failed 400, db)
    else if ¬ (password == passwordConfirm) then (.failed 400, db)
    else
      let users' := db.users.map (fun u =>
        if u.id == user.id then
          { u with password := password
                   passwordResetToken := none
                   passwordResetExpires := none }
        else u)
      let ledgerAfterInvalidate := db.ledger.filter (fun r => r.userId ≠ user.id)
      let (accessToken, refreshToken) := generateTokens db.nextId
      (.ok accessToken refreshToken,
       { users := users'
         ledger := ledgerAfterInvalidate ++
           [{ rowId := db.nextId + 2
              token := refreshToken
              userId := user.id
              expiresAt := now + refreshTtlMs }]
         nextId := db.nextId + 3 })

/-! ## Access guard (`backend/middleware/auth.js`, protect, lines 20-92) -/

/-- Outcome of `jwt.verify` on a presented string.  Signature checking is
cryptographic and external, so the verifier is passed to `protect` as a
function; `ok` carries the decoded payload `{ userId, type }` exactly as
`generateTokens` signs it. -/
inductive VerifyOutcome where
  | jsonWebTokenError
  | tokenExpiredError
  | otherError
  | ok (userId : Nat) (tokenType : String)
  deriving DecidableEq, Repr

inductive ProtectMsg where
  | notLoggedIn
  | invalidToken
  | tokenExpired
  | invalidTokenType
  | userGone
  deriving DecidableEq, Repr

inductive ProtectResult where
  | granted (user : UserRec)
  | failed (status : Nat) (msg : ProtectMsg)
  | passthrough
  deriving DecidableEq, Repr

/-- JS `String.prototype.split(' ')`: cut the character sequence at every
single space. -/
def splitOnSpace : List Char → List (List Char)
  | [] => [[]]
  | c :: cs =>
    let rest := splitOnSpace cs
    if c == ' ' then [] :: rest
    else
      match rest with
      | [] => [[c]]
      | w :: ws => (c :: w) :: ws

/-- Bearer extraction: the header must exist and start with `Bearer`; the token
is `authorization.split(' ')[1]`, and a missing or empty piece is falsy. -/
def extractBearer (authorization : Option String) : Option String :=
  match authorization with
  | none => none
  | some s =>
    if s.toList.take 6 == "Bearer".toList then
      match (splitOnSpace s.toList).get? 1 with
      | none => none
      | some t => if t == [] then none else some (String.mk t)
    else none

/-- `protect`: extract the bearer token (401 if absent), verify it (401 on
invalid or expired, other verification errors are passed through), reject a
payload whose `type` is not `'access'` (401), re-resolve the user by the
decoded `userId` (401 if gone), and attach the resolved user on success. -/
def protect (verify : String → VerifyOutcome) (users : List UserRec)
    (authorization : Option String) : ProtectResult :=
  match extractBearer authorization with
  | none => .failed 401 .notLoggedIn
  | some token =>
    match verify token with
    | .jsonWebTokenError => .failed 401 .invalidToken
    | .tokenExpiredError => .failed 401 .tokenExpired
    | .otherError => .passthrough
    | .ok userId tokenType =>
      if ¬ (tokenType == "access") then .failed 401 .invalidTokenType
      else
        match users.find? (fun u => u.id == userId) with
        | none => .failed 401 .userGone
        | some currentUser => .granted currentUser

/-! ## Forgot password (`authController.forgotPassword`, lines 157-210) -/

/-- An HTTP JSON reply reduced to the fields the claims talk about: the HTTP
status code, the `status` field and the `message` field of the body. -/
structure Reply where
  statusCode : Nat
  status : String
  message : String
  deriving DecidableEq, Repr

/-- `forgotPassword`: unknown email → generic 200; known email → store the
reset-token hash and a 10-minute expiry, then dispatch the email (external):
on success reply 200 `Token sent to email!`, on failure roll the token fields
back and fail 500.  `resetTokenHash` stands for the sha256 of the random token
and `emailOk` for the outcome of the external send. -/
def forgotPassword (db : AuthDB) (now : Int) (email : String)
    (resetTokenHash : Nat) (emailOk : Bool) : Reply × AuthDB :=
  match db.users.find? (fun u => u.email == email) with
  | none =>
    ({ statusCode := 200, status := "success"
       message := "If the email exists, a password reset token has been sent." }, db)
  | some user =>
    let usersWithToken := db.users.map (fun u =>
      if u.id == user.id then
        { u with passwordResetToken := some resetTokenHash
                 passwordResetExpires := some (now + 10 * 60 * 1000) }
      else u)
    if emailOk then
      ({ statusCode := 200, status := "success", message := "Token sent to email!" },
       { db with users := usersWithToken })
    else
      let usersRolledBack := usersWithToken.map (fun u =>
        if u.id == user.id then
          { u with passwordResetToken := none, passwordResetExpires := none }
        else u)
      ({ statusCode := 500, status := "error"
         message := "There was an error sending the email. Try again later!" },
       { db with users := usersRolledBack })

/-! ## Journal-entry / mood data model -/

/-- A timestamp split into calendar fields plus a time-of-day component in
minutes, as needed by the `yyyy-MM-dd` formatting and the month-window
queries. -/
structure DateTime where
  year : Nat
  month : Nat
  day : Nat
  minuteOfDay : Nat
  deriving DecidableEq, Repr

/-- Lexicographic comparison on (year, month, day, minuteOfDay). -/
def DateTime.le (a b : DateTime) : Bool :=
  a.year < b.year ||
  (a.year == b.year &&
    (a.month < b.month ||
      (a.month == b.month &&
        (a.day < b.day ||
          (a.day == b.day && a.minuteOfDay ≤ b.minuteOfDay)))))

/-- Zero-padded decimal rendering of width 2, as `date-fns` format `MM`/`dd`. -/
def pad2 (n : Nat) : String :=
  if n < 10 then "0" ++ toString n else toString n

/-- `format(date, 'yyyy-MM-dd')` from `date-fns`. -/
def formatYMD (d : DateTime) : String :=
  toString d.year ++ "-" ++ pad2 d.month ++ "-" ++ pad2 d.day

/-- `new Date(year, month, 0).getDate()`: the number of days in `month`
(1-based) of `year`, as used to build the calendar month window. -/
def daysInMonth (year month : Nat) : Nat :=
  if month == 2 then
    if year % 4 == 0 && (year % 100 ≠ 0 || year % 400 == 0) then 29 else 28
  else if month == 4 || month == 6 || month == 9 || month == 11 then 30
  else 31

/-- A JournalEntry document (`backend/models/Entry.js`): owner, category from a
fixed enumeration, optional link to one Mood, soft-delete timestamp. -/
structure EntryRec where
  id : Nat
  userId : Nat
  title : String
  content : String
  category : String
  mood : Option Nat := none
  createdAt : DateTime
  deletedAt : Option Int := none
  deriving DecidableEq, Repr

/-- A Mood document (`backend/models/Mood.js`): mood type, owner, bounded
intensity defaulting to 3, own date, optional back-reference to the entry. -/
structure MoodRec where
  id : Nat
  moodType : Nat
  userId : Nat
  intensity : Nat := 3
  date : DateTime
  notes : String := ""
  journalEntry : Option Nat := none
  deriving DecidableEq, Repr

/-- A MoodType catalog document (`backend/models/MoodType.js`). -/
structure MoodTypeRec where
  id : Nat
  name : String
  emoji : String
  colorCode : String
  description : String := ""
  deriving DecidableEq, Repr

/-- The journal-side database: entries, moods, the mood-type catalog, and a
freshness counter for new ids. -/
structure JournalDB where
  entries : List EntryRec
  moods : List MoodRec
  moodTypes : List MoodTypeRec
  nextId : Nat
  deriving DecidableEq, Repr

/-- The category enumeration of `entrySchema` (`backend/models/Entry.js`). -/
def categoryEnum : List String :=
  ["FAMILY", "RELATIONSHIP", "MYSELF", "WORK", "OTHER"]

/-! ## Reading entries: the soft-delete pre-find hook -/

/-- The `entrySchema.pre(/^find/)` hook composed with an explicit filter: every
find on entries adds `deletedAt: null` to the condition unless the query was
issued with the `withDeleted` option. -/
def findEntriesWith (db : List EntryRec) (withDeleted : Bool)
    (filter : EntryRec → Bool) : List EntryRec :=
  db.filter (fun e => (withDeleted || e.deletedAt == none) && filter e)

/-- `entryController.getEntries` reduced to its filter stage: the rows the
default listing draws from (sorting, field selection and pagination reorder and
slice this set but never extend it). -/
def getEntriesFiltered (db : JournalDB) (uid : Nat) : List EntryRec :=
  findEntriesWith db.entries false (fun e => e.userId == uid)

/-- `entrySchema.statics.findDeleted`: the explicit query for deleted rows,
issued with the `withDeleted` option. -/
def findDeleted (db : List EntryRec) : List EntryRec :=
  findEntriesWith db true (fun e => ¬ e.deletedAt == none)

/-- `entrySchema.methods.softDelete`: set `deletedAt` on the document and save
it; the row is updated in place, never removed. -/
def softDeleteEntry (db : List EntryRec) (entryId : Nat) (now : Int) : List EntryRec :=
  db.map (fun e => if e.id == entryId then { e with deletedAt := some now } else e)

/-- `entrySchema.statics.restoreById`: clear `deletedAt` on the row
(issued with `withDeleted` so the deleted row can be found). -/
def restoreById (db : List EntryRec) (entryId : Nat) : List EntryRec :=
  db.map (fun e => if e.id == entryId then { e with deletedAt := none } else e)

/-! ## Entry creation / update / deletion (`entryController.js`)

`createEntry` and `updateEntry` wrap their writes in a Mongoose session:
documents written inside the transaction become visible only at
`commitTransaction`, and `abortTransaction` discards them all.  In the
embedding, a failing branch therefore returns the input database unchanged
(the abort), and the success branch returns the database with every staged
write applied at once (the commit). -/

inductive EntryOutcome where
  | created (entryId : Nat) (moodId : Option Nat)
  | updated (entryId : Nat)
  | noContent
  | failed (status : Nat)
  deriving DecidableEq, Repr

/-- JS `String.prototype.toUpperCase` on the ASCII category names. -/
def toUpperCase (s : String) : String :=
  String.mk (s.toList.map Char.toUpper)

/-- `moodSchema` intensity validator: when a value is supplied it must lie in
1..5 (`Mood.create` applies the default 3 when it is absent). -/
def validIntensity (moodIntensity : Option Nat) : Bool :=
  match moodIntensity with
  | none => true
  | some i => 1 ≤ i && i ≤ 5

/-- `entryController.createEntry` (lines 120-192): guard the required fields,
then inside one transaction create the entry, create the linked mood when
`moodTypeId` is given, write the mood id back onto the entry, and commit;
any validation failure aborts the transaction and surfaces a 400. -/
def createEntry (db : JournalDB) (uid : Nat) (title content category : String)
    (moodTypeId : Option Nat) (moodIntensity : Option Nat)
    (moodNotes : Option String) (moodDate : Option DateTime)
    (now : DateTime) : EntryOutcome × JournalDB :=
  if title == "" || content == "" || category == "" then
    (.failed 400, db)
  else
    let cat := toUpperCase category
    if ¬ categoryEnum.contains cat then
      (.failed 400, db)
    else
      let entryId := db.nextId
      let newEntry : EntryRec :=
        { id := entryId, userId := uid, title := title, content := content
          category := cat, mood := none, createdAt := now, deletedAt := none }
      match moodTypeId with
      | none =>
        (.created entryId none,
         { db with entries := db.entries ++ [newEntry], nextId := db.nextId + 1 })
      | some mt =>
        if ¬ validIntensity moodIntensity then
          (.failed 400, db)
        else
          let moodId := db.nextId + 1
          let newMood : MoodRec :=
            { id := moodId, moodType := mt, userId := uid
              intensity := moodIntensity.getD 3
              date := moodDate.getD now
              notes := moodNotes.getD ""
              journalEntry := some entryId }
          (.created entryId (some moodId),
           { db with
             entries := db.entries ++ [{ newEntry with mood := some moodId }]
             moods := db.moods ++ [newMood]
             nextId := db.nextId + 2 })

/-- `entryController.updateEntry` (lines 214-296): inside one transaction find
the entry (a find, so soft-deleted rows are invisible), update its fields, then
per the provided `moodTypeId` update / create / delete the linked mood, save
the entry and commit.  `moodTypeId` is `none` when the field is absent from the
request and `some none` when it is present but null; the source's trailing
`else if (moodTypeId === null && ...)` branch is unreachable because
`null !== undefined` already routes null into the main branch. -/
def updateEntry (db : JournalDB) (uid entryId : Nat)
    (title content category : Option String)
    (moodTypeId : Option (Option Nat)) (moodIntensity : Option Nat)
    (moodNotes : Option String) (moodDate : Option DateTime)
    (now : DateTime) : EntryOutcome × JournalDB :=
  match db.entries.find? (fun e =>
      e.id == entryId && e.userId == uid && e.deletedAt == none) with
  | none => (.failed 404, db)
  | some existingEntry =>
    let e3 : EntryRec :=
      { existingEntry with
        title := title.getD existingEntry.title
        content := content.getD existingEntry.content
        category := match category with
          | some c => toUpperCase c
          | none => existingEntry.category }
    if ¬ categoryEnum.contains e3.category then
      (.failed 400, db)
    else
      match moodTypeId with
      | none =>
        (.updated entryId,
         { db with entries := db.entries.map (fun x =>
             if x.id == entryId then e3 else x) })
      | some mtOpt =>
        match existingEntry.mood, mtOpt with
        | some existingMoodId, some mt =>
          if ¬ validIntensity moodIntensity then
            (.failed 400, db)
          else
            (.updated entryId,
             { db with
               entries := db.entries.map (fun x =>
                 if x.id == entryId then { e3 with mood := some existingMoodId } else x)
               moods := db.moods.map (fun m =>
                 if m.id == existingMoodId then
                   { m with moodType := mt, userId := uid
                            intensity := moodIntensity.getD m.intensity
                            date := moodDate.getD now
                            notes := moodNotes.getD m.notes
                            journalEntry := some entryId }
                 else m) })
        | none, some mt =>
          if ¬ validIntensity moodIntensity then
            (.failed 400, db)
          else
            let moodId := db.nextId
            (.updated entryId,
             { db with
               entries := db.entries.map (fun x =>
                 if x.id == entryId then { e3 with mood := some moodId } else x)
               moods := db.moods ++
                 [{ id := moodId, moodType := mt, userId := uid
                    intensity := moodIntensity.getD 3
                    date := moodDate.getD now
                    notes := moodNotes.getD ""
                    journalEntry := some entryId }]
               nextId := db.nextId + 1 })
        | some existingMoodId, none =>
          (.updated entryId,
           { db with
             entries := db.entries.map (fun x =>
               if x.id == entryId then { e3 with mood := none } else x)
             moods := db.moods.filter (fun m => m.id ≠ existingMoodId) })
        | none, none =>
          (.updated entryId,
           { db with entries := db.entries.map (fun x =>
               if x.id == entryId then e3 else x) })

/-- `entryController.deleteEntry` (lines 299-323): find the live entry, soft
delete it, and hard-delete the linked mood document if one is linked. -/
def deleteEntry (db : JournalDB) (uid entryId : Nat) (now : Int) :
    EntryOutcome × JournalDB :=
  match db.entries.find? (fun e =>
      e.id == entryId && e.userId == uid && e.deletedAt == none) with
  | none => (.failed 404, db)
  | some entry =>
    let entries' := softDeleteEntry db.entries entryId now
    let moods' := match entry.mood with
      | some moodId => db.moods.filter (fun m => m.id ≠ moodId)
      | none => db.moods
    (.noContent, { db with entries := entries', moods := moods' })

/-! ## Identity-dependent catalogs (`getEntryCategories`, `getMoodTypes`) -/

/-- `entryController.getEntryCategories` (lines 98-118): the base category list,
plus `BISRAT` exactly for the hardcoded email. -/
def getEntryCategories (userEmail : String) : List String :=
  let baseCategories := ["FAMILY", "RELATIONSHIP", "MYSELF", "WORK", "OTHER"]
  if userEmail == "betsi2426@gmail.com" then baseCategories ++ ["BISRAT"]
  else baseCategories

/-- The synthesized special mood type pushed for the hardcoded email; its `_id`
is freshly generated at request time. -/
def bisratMoodType (freshId : Nat) : MoodTypeRec :=
  { id := freshId, name := "Bisrat", emoji := "🌟", colorCode := "#FFD700"
    description := "Special category for Bisrat" }

/-- `getMoodTypes` (`src/unnamed/part_006` lines 333-356): the stored catalog,
plus the synthesized `Bisrat` type exactly for the hardcoded email. -/
def getMoodTypes (moodTypes : List MoodTypeRec) (userEmail : String)
    (freshId : Nat) : List MoodTypeRec :=
  if userEmail == "betsi2426@gmail.com" then moodTypes ++ [bisratMoodType freshId]
  else moodTypes

/-! ## Mood-aggregation engine (`getMoodStats`, `src/unnamed/part_006` lines 399-501)

The stats pipeline aggregates over JournalEntry documents: `$match` by user,
creation-date window and non-null mood link, `$lookup`+`$unwind` the Mood and
its MoodType with `preserveNullAndEmptyArrays`, `$match` away the documents
whose lookups failed, `$group` by mood type counting, `$sort {count: -1}`, and
`$project`.  Aggregation bypasses the schema pre-find hooks.  MongoDB leaves
the relative order of equal sort keys unspecified; the embedding refines it to
a stable sort over the grouping order. -/

/-- Resolve the chain entry → linked mood → mood type, yielding `none` exactly
when the entry has no linked mood or one of the two lookups dangles. -/
def resolveEntryMood (db : JournalDB) (e : EntryRec) : Option (MoodRec × MoodTypeRec) :=
  match e.mood with
  | none => none
  | some moodId =>
    match db.moods.find? (fun m => m.id == moodId) with
    | none => none
    | some mood =>
      match db.moodTypes.find? (fun t => t.id == mood.moodType) with
      | none => none
      | some moodType => some (mood, moodType)

/-- The `$match` stage of the stats pipeline: the user's entries created inside
the window that have a mood linked. -/
def moodStatsEntries (db : JournalDB) (uid : Nat) (fromDate toDate : DateTime) :
    List EntryRec :=
  db.entries.filter (fun e =>
    e.userId == uid && DateTime.le fromDate e.createdAt &&
    DateTime.le e.createdAt toDate && ¬ e.mood == none)

/-- The `$group` stage: count occurrences per mood type (`$first` keeps the
display fields of the resolved type), in first-occurrence order. -/
def groupCountByType (resolved : List MoodTypeRec) : List (MoodTypeRec × Nat) :=
  resolved.foldl (fun acc t =>
    if acc.any (fun p => p.1.id == t.id) then
      acc.map (fun p => if p.1.id == t.id then (p.1, p.2 + 1) else p)
    else acc ++ [(t, 1)]) []

/-- Stable insertion of one row into a count-descending list (`$sort {count:-1}`). -/
def insertByCountDesc {α : Type} (p : α × Nat) : List (α × Nat) → List (α × Nat)
  | [] => [p]
  | q :: qs => if q.2 ≤ p.2 then p :: q :: qs else q :: insertByCountDesc p qs

/-- Stable sort of the grouped counts, descending by count. -/
def sortByCountDesc {α : Type} : List (α × Nat) → List (α × Nat)
  | [] => []
  | p :: ps => insertByCountDesc p (sortByCountDesc ps)

/-- The full stats list (`moodCounts` in the response): grouped, counted and
sorted descending by count. -/
def moodStats (db : JournalDB) (uid : Nat) (fromDate toDate : DateTime) :
    List (MoodTypeRec × Nat) :=
  sortByCountDesc (groupCountByType
    ((moodStatsEntries db uid fromDate toDate).filterMap
      (fun e => (resolveEntryMood db e).map Prod.snd)))

/-- `maxCount`: the count of the head of the sorted stats, `0` when empty. -/
def maxCount (stats : List (MoodTypeRec × Nat)) : Nat :=
  match stats with
  | [] => 0
  | s :: _ => s.2

/-- `mostFrequentMoods`: every mood type whose count equals the maximum count
(the tie handling of the stats handler). -/
def mostFrequentMoods (stats : List (MoodTypeRec × Nat)) : List MoodTypeRec :=
  if maxCount stats > 0 then
    (stats.filter (fun s => s.2 == maxCount stats)).map (fun s => s.1)
  else []

/-! ## Mood calendar (`getMoodCalendar`, `src/unnamed/part_006` lines 505-560) -/

/-- One value of the calendar map: the linked mood rendered with its populated
mood type. -/
structure CalendarCell where
  id : Nat
  intensity : Nat
  notes : String
  moodType : MoodTypeRec
  deriving DecidableEq, Repr

def calendarCell (mood : MoodRec) (moodType : MoodTypeRec) : CalendarCell :=
  { id := mood.id, intensity := mood.intensity, notes := mood.notes
    moodType := moodType }

/-- One step of the calendar `reduce`: push the cell onto the list under its
date key, creating the key (in insertion order) when absent. -/
def addCalendarCell (acc : List (String × List CalendarCell)) (key : String)
    (cell : CalendarCell) : List (String × List CalendarCell) :=
  if acc.any (fun p => p.1 == key) then
    acc.map (fun p => if p.1 == key then (p.1, p.2 ++ [cell]) else p)
  else acc ++ [(key, [cell])]

/-- Stable insertion by ascending entry creation timestamp (`.sort('createdAt')`). -/
def insertByCreatedAt (e : EntryRec) : List EntryRec → List EntryRec
  | [] => [e]
  | x :: xs =>
    if DateTime.le x.createdAt e.createdAt then x :: insertByCreatedAt e xs
    else e :: x :: xs

def sortByCreatedAt : List EntryRec → List EntryRec
  | [] => []
  | e :: es => insertByCreatedAt e (sortByCreatedAt es)

/-- The calendar reduce over a prepared entry list: entries whose mood or mood
type fails to populate are skipped; the key is the entry's creation date
formatted `yyyy-MM-dd`. -/
def calendarFold (db : JournalDB) (entries : List EntryRec) :
    List (String × List CalendarCell) :=
  entries.foldl (fun acc entry =>
    match resolveEntryMood db entry with
    | none => acc
    | some (mood, moodType) =>
      addCalendarCell acc (formatYMD entry.createdAt) (calendarCell mood moodType)) []

/-- `getMoodCalendar`: find the user's live entries created in the requested
calendar month that have a mood linked (a `find`, so the soft-delete hook
applies), sort by creation date, and group the populated moods by the entry
creation day. -/
def getMoodCalendar (db : JournalDB) (uid : Nat) (year month : Nat) :
    List (String × List CalendarCell) :=
  let startDate : DateTime := { year := year, month := month, day := 1, minuteOfDay := 0 }
  let endDate : DateTime :=
    { year := year, month := month, day := daysInMonth year month, minuteOfDay := 1439 }
  let entries := sortByCreatedAt (findEntriesWith db.entries false (fun e =>
    e.userId == uid && DateTime.le startDate e.createdAt &&
    DateTime.le e.createdAt endDate && ¬ e.mood == none))
  calendarFold db entries

/-- Lookup of a calendar key (JS object property access), returning the cell
list (empty when the key is absent). -/
def calendarLookup (cal : List (String × List CalendarCell)) (key : String) :
    List CalendarCell :=
  match cal with
  | [] => []
  | p :: ps => if p.1 = key then p.2 else calendarLookup ps key

/-- The moods the calendar is expected to list under day `k`: the cells of the
prepared entries whose creation date formats to `k` and whose mood and mood
type resolve. -/
def cellsOf (db : JournalDB) (entries : List EntryRec) (k : String) :
    List CalendarCell :=
  entries.filterMap (fun e =>
    match resolveEntryMood db e with
    | none => none
    | some (mood, moodType) =>
      if formatYMD e.createdAt == k then some (calendarCell mood moodType)
      else none)

/-! ## Concrete fixtures used by witnesses and counterexamples -/

/-- A small auth database: one user, one live ledger row (token string 5). -/
def dbC1 : AuthDB :=
  { users := [{ id := 1, email := "a@x.com", password := "password123" }]
    ledger := [{ rowId := 10, token := 5, userId := 1, expiresAt := 100 }]
    nextId := 20 }

/-- The same database with a pending password-reset token hash (77) stored for
user 1. -/
def dbC2 : AuthDB :=
  { users := [{ id := 1, email := "a@x.com", password := "password123"
                passwordResetToken := some 77, passwordResetExpires := some 50 }]
    ledger := [{ rowId := 10, token := 5, userId := 1, expiresAt := 100 }]
    nextId := 20 }

/-- A concrete verifier for exercising `protect`: one valid access token, one
refresh token, one expired and everything else malformed. -/
def verifyC3 : String → VerifyOutcome := fun t =>
  if t == "good" then .ok 1 "access"
  else if t == "refr" then .ok 1 "refresh"
  else if t == "stale" then .tokenExpiredError
  else .jsonWebTokenError

/-- Three mood types for the aggregation examples. -/
def tA : MoodTypeRec := { id := 1, name := "happy", emoji := "h", colorCode := "#1A2B3C" }

def tB : MoodTypeRec := { id := 2, name := "calm", emoji := "c", colorCode := "#2B3C4D" }

def tC : MoodTypeRec := { id := 3, name := "sad", emoji := "s", colorCode := "#3C4D5E" }

/-- One journal entry of user 1 with a linked mood, created on the given March
2024 day. -/
def mkEntryC5 (k moodId : Nat) : EntryRec :=
  { id := 100 + k, userId := 1, title := "T", content := "C", category := "WORK"
    mood := some moodId, createdAt := { year := 2024, month := 3, day := k, minuteOfDay := 10 } }

def mkMoodC5 (k typeId : Nat) : MoodRec :=
  { id := 200 + k, moodType := typeId, userId := 1
    date := { year := 2024, month := 3, day := k, minuteOfDay := 0 }
    journalEntry := some (100 + k) }

/-- A window with moods A:3, B:3, C:1 (types `tA`, `tB`, `tC`). -/
def dbC5 : JournalDB :=
  { entries := [mkEntryC5 1 201, mkEntryC5 2 202, mkEntryC5 3 203, mkEntryC5 4 204,
                mkEntryC5 5 205, mkEntryC5 6 206, mkEntryC5 7 207]
    moods := [mkMoodC5 1 1, mkMoodC5 2 1, mkMoodC5 3 1, mkMoodC5 4 2,
              mkMoodC5 5 2, mkMoodC5 6 2, mkMoodC5 7 3]
    moodTypes := [tA, tB, tC]
    nextId := 1000 }

def winFrom : DateTime := { year := 2024, month := 2, day := 1, minuteOfDay := 0 }

def winTo : DateTime := { year := 2024, month := 3, day := 31, minuteOfDay := 1439 }

/-- Fixture for the calendar claim: two entries created on 2024-03-05 (at
different times, with mood dates far from the creation dates) and one entry on
2024-03-06 whose mood reference dangles. -/
def mC9a : MoodRec :=
  { id := 401, moodType := 1, userId := 1
    date := { year := 2024, month := 1, day := 1, minuteOfDay := 0 }
    journalEntry := some 301 }

def mC9b : MoodRec :=
  { id := 402, moodType := 2, userId := 1
    date := { year := 2024, month := 2, day := 2, minuteOfDay := 0 }
    journalEntry := some 302 }

def dbC9 : JournalDB :=
  { entries :=
      [{ id := 301, userId := 1, title := "T1", content := "C1", category := "WORK"
         mood := some 401
         createdAt := { year := 2024, month := 3, day := 5, minuteOfDay := 100 } },
       { id := 302, userId := 1, title := "T2", content := "C2", category := "WORK"
         mood := some 402
         createdAt := { year := 2024, month := 3, day := 5, minuteOfDay := 200 } },
       { id := 303, userId := 1, title := "T3", content := "C3", category := "WORK"
         mood := some 999
         createdAt := { year := 2024, month := 3, day := 6, minuteOfDay := 100 } }]
    moods := [mC9a, mC9b]
    moodTypes := [tA, tB]
    nextId := 2000 }

/-! ## Helper lemmas -/

theorem mem_insertByCountDesc {α : Type} {x p : α × Nat} {l : List (α × Nat)} :
    x ∈ insertByCountDesc p l ↔ x = p ∨ x ∈ l := by
  induction l with
  | nil => simp [insertByCountDesc]
  | cons q qs ih =>
    simp only [insertByCountDesc]
    split
    · simp
    · simp only [List.mem_cons, ih]
      tauto

theorem pairwise_insertByCountDesc {α : Type} {p : α × Nat} {l : List (α × Nat)}
    (h : l.Pairwise (fun a b => b.2 ≤ a.2)) :
    (insertByCountDesc p l).Pairwise (fun a b => b.2 ≤ a.2) := by
  induction l with
  | nil => simp [insertByCountDesc]
  | cons q qs ih =>
    rw [List.pairwise_cons] at h
    obtain ⟨hq, hqs⟩ := h
    simp only [insertByCountDesc]
    split
    · rename_i hlt
      rw [List.pairwise_cons]
      refine ⟨?_, List.Pairwise.cons hq hqs⟩
      intro x hx
      rcases List.mem_cons.mp hx with hxq | hxqs
      · rw [hxq]; omega
      · have := hq x hxqs; omega
    · rename_i hge
      rw [List.pairwise_cons]
      refine ⟨?_, ih hqs⟩
      intro x hx
      rcases mem_insertByCountDesc.mp hx with hxp | hxqs
      · rw [hxp]; omega
      · exact hq x hxqs

theorem sortByCountDesc_pairwise {α : Type} (l : List (α × Nat)) :
    (sortByCountDesc l).Pairwise (fun a b => b.2 ≤ a.2) := by
  induction l with
  | nil => simp [sortByCountDesc]
  | cons p ps ih => exact pairwise_insertByCountDesc ih

theorem mem_sortByCountDesc {α : Type} {x : α × Nat} {l : List (α × Nat)} :
    x ∈ sortByCountDesc l ↔ x ∈ l := by
  induction l with
  | nil => simp [sortByCountDesc]
  | cons p ps ih =>
    simp only [sortByCountDesc, mem_insertByCountDesc, List.mem_cons, ih]

theorem groupCountByType_go_pos (l : List MoodTypeRec)
    (acc : List (MoodTypeRec × Nat)) (hacc : ∀ p ∈ acc, 0 < p.2) :
    ∀ p ∈ l.foldl (fun acc t =>
      if acc.any (fun p => p.1.id == t.id) then
        acc.map (fun p => if p.1.id == t.id then (p.1, p.2 + 1) else p)
      else acc ++ [(t, 1)]) acc, 0 < p.2 := by
  induction l generalizing acc with
  | nil => exact hacc
  | cons t ts ih =>
    simp only [List.foldl_cons]
    apply ih
    split
    · intro p hp
      rcases List.mem_map.mp hp with ⟨q, hq, hqe⟩
      rcases em (q.1.id = t.id) with he | hne
      · have : p = (q.1, q.2 + 1) := by
          rw [← hqe]; simp [he]
        rw [this]; omega
      · have : p = q := by
          rw [← hqe]; simp [hne]
        rw [this]; exact hacc q hq
    · intro p hp
      rcases List.mem_append.mp hp with hpa | hp1
      · exact hacc p hpa
      · rw [List.mem_singleton.mp hp1]; omega

theorem groupCountByType_pos (l : List MoodTypeRec) :
    ∀ p ∈ groupCountByType l, 0 < p.2 :=
  groupCountByType_go_pos l [] (by simp)

/-- Every `createEntry` outcome is either a failure returning the database
unchanged (the aborted transaction) or a success. -/
theorem createEntry_cases (db : JournalDB) (uid : Nat)
    (title content category : String) (moodTypeId : Option Nat)
    (moodIntensity : Option Nat) (moodNotes : Option String)
    (moodDate : Option DateTime) (now : DateTime) :
    (∃ s, createEntry db uid title content category moodTypeId moodIntensity
        moodNotes moodDate now = (.failed s, db)) ∨
    (∃ eid mid, (createEntry db uid title content category moodTypeId
        moodIntensity moodNotes moodDate now).1 = .created eid mid) := by
  simp only [createEntry]
  repeat' split
  all_goals first
    | exact Or.inl ⟨400, rfl⟩
    | exact Or.inr ⟨_, _, rfl⟩

/-- Shape of a successful `createEntry` carrying a mood: the committed state
appends exactly the new entry and the new mood, mutually linked through the
fresh ids. -/
theorem createEntry_success_shape (db : JournalDB) (uid : Nat)
    (title content category : String) (mt : Nat) (moodIntensity : Option Nat)
    (moodNotes : Option String) (moodDate : Option DateTime) (now : DateTime)
    (eid mid : Nat)
    (h : (createEntry db uid title content category (some mt) moodIntensity
        moodNotes moodDate now).1 = .created eid (some mid)) :
    eid = db.nextId ∧ mid = db.nextId + 1 ∧
    (createEntry db uid title content category (some mt) moodIntensity
        moodNotes moodDate now).2 =
      { db with
        entries := db.entries ++
          [{ id := db.nextId, userId := uid, title := title, content := content
             category := toUpperCase category, mood := some (db.nextId + 1)
             createdAt := now, deletedAt := none }]
        moods := db.moods ++
          [{ id := db.nextId + 1, moodType := mt, userId := uid
             intensity := moodIntensity.getD 3, date := moodDate.getD now
             notes := moodNotes.getD "", journalEntry := some db.nextId }]
        nextId := db.nextId + 2 } := by
  by_cases h1 : (title == "" || content == "" || category == "") = true
  · simp [createEntry, h1] at h
  · by_cases h2 : toUpperCase category ∈ categoryEnum
    · by_cases h3 : validIntensity moodIntensity = true
      · have heq : (createEntry db uid title content category (some mt)
            moodIntensity moodNotes moodDate now).1 =
            .created db.nextId (some (db.nextId + 1)) := by
          simp [createEntry, h1, h2, h3]
        rw [heq] at h
        injection h with h4 h5
        refine ⟨h4.symm, (Option.some_injective _ h5).symm, ?_⟩
        simp [createEntry, h1, h2, h3]
      · simp [createEntry, h1, h2, h3] at h
    · simp [createEntry, h1, h2] at h

/-- Every `updateEntry` outcome is either a failure returning the database
unchanged (the aborted transaction) or a success reporting the entry id. -/
theorem updateEntry_cases (db : JournalDB) (uid entryId : Nat)
    (title content category : Option String) (moodTypeId : Option (Option Nat))
    (moodIntensity : Option Nat) (moodNotes : Option String)
    (moodDate : Option DateTime) (now : DateTime) :
    (∃ s, updateEntry db uid entryId title content category moodTypeId
        moodIntensity moodNotes moodDate now = (.failed s, db)) ∨
    (updateEntry db uid entryId title content category moodTypeId
        moodIntensity moodNotes moodDate now).1 = .updated entryId := by
  simp only [updateEntry]
  repeat' split
  all_goals first
    | exact Or.inl ⟨404, rfl⟩
    | exact Or.inl ⟨400, rfl⟩
    | exact Or.inr rfl

/-- When `updateEntry` is called with a mood type and succeeds, the post state
contains the updated entry linked to a mood that points back at the entry and
carries the requested mood type (for the update-in-place path this needs the
pre-existing link to resolve, since `findByIdAndUpdate` on a dangling id is a
silent no-op). -/
theorem updateEntry_success_mood_link
    (db : JournalDB) (uid entryId : Nat) (title content category : Option String)
    (mt : Nat) (moodIntensity : Option Nat) (moodNotes : Option String)
    (moodDate : Option DateTime) (now : DateTime) (existingEntry : EntryRec)
    (hfind : db.entries.find? (fun e =>
      e.id == entryId && e.userId == uid && e.deletedAt == none) = some existingEntry)
    (hmm : ∀ mid, existingEntry.mood = some mid → ∃ m ∈ db.moods, m.id = mid)
    (hsucc : (updateEntry db uid entryId title content category (some (some mt))
      moodIntensity moodNotes moodDate now).1 = .updated entryId) :
    ∃ e ∈ (updateEntry db uid entryId title content category (some (some mt))
        moodIntensity moodNotes moodDate now).2.entries,
      e.id = entryId ∧ ∃ mid, e.mood = some mid ∧
      ∃ m ∈ (updateEntry db uid entryId title content category (some (some mt))
          moodIntensity moodNotes moodDate now).2.moods,
        m.id = mid ∧ m.journalEntry = some entryId ∧ m.moodType = mt := by
  have hmem : existingEntry ∈ db.entries := List.mem_of_find?_eq_some hfind
  have hcomp := List.find?_some hfind
  simp only [Bool.and_eq_true, beq_iff_eq] at hcomp
  obtain ⟨⟨hid, huid⟩, hdel⟩ := hcomp
  rcases hm : existingEntry.mood with _ | emid
  · rcases category with _ | c
    · by_cases hcat : existingEntry.category ∈ categoryEnum
      · by_cases h3 : validIntensity moodIntensity = true
        · simp [updateEntry, hfind, hm, hcat, h3]
          exact ⟨existingEntry, hmem, by simp [hid], db.nextId, by simp [hid],
            _, Or.inr rfl, rfl, rfl, rfl⟩
        · simp [updateEntry, hfind, hm, hcat, h3] at hsucc
      · simp [updateEntry, hfind, hm, hcat] at hsucc
    · by_cases hcat : toUpperCase c ∈ categoryEnum
      · by_cases h3 : validIntensity moodIntensity = true
        · simp [updateEntry, hfind, hm, hcat, h3]
          exact ⟨existingEntry, hmem, by simp [hid], db.nextId, by simp [hid],
            _, Or.inr rfl, rfl, rfl, rfl⟩
        · simp [updateEntry, hfind, hm, hcat, h3] at hsucc
      · simp [updateEntry, hfind, hm, hcat] at hsucc
  · obtain ⟨m0, hm0mem, hm0id⟩ := hmm emid hm
    rcases category with _ | c
    · by_cases hcat : existingEntry.category ∈ categoryEnum
      · by_cases h3 : validIntensity moodIntensity = true
        · simp [updateEntry, hfind, hm, hcat, h3]
          refine ⟨existingEntry, hmem, by simp [hid], emid, by simp [hid],
            m0, hm0mem, ?_⟩
          simp [hm0id]
        · simp [updateEntry, hfind, hm, hcat, h3] at hsucc
      · simp [updateEntry, hfind, hm, hcat] at hsucc
    · by_cases hcat : toUpperCase c ∈ categoryEnum
      · by_cases h3 : validIntensity moodIntensity = true
        · simp [updateEntry, hfind, hm, hcat, h3]
          refine ⟨existingEntry, hmem, by simp [hid], emid, by simp [hid],
            m0, hm0mem, ?_⟩
          simp [hm0id]
        · simp [updateEntry, hfind, hm, hcat, h3] at hsucc
      · simp [updateEntry, hfind, hm, hcat] at hsucc

theorem calendarLookup_map_ne {acc : List (String × List CalendarCell)}
    {key k : String} {cell : CalendarCell} (hk : k ≠ key) :
    calendarLookup (acc.map (fun p =>
      if p.1 == key then (p.1, p.2 ++ [cell]) else p)) k = calendarLookup acc k := by
  induction acc with
  | nil => rfl
  | cons q qs ih =>
    simp only [List.map_cons]
    by_cases hq : q.1 = key
    · rw [if_pos (show (q.1 == key) = true by simp [hq])]
      simp only [calendarLookup]
      rw [if_neg (fun h => hk (h.symm.trans hq)),
        if_neg (fun h => hk (h.symm.trans hq))]
      exact ih
    · rw [if_neg (show ¬ (q.1 == key) = true by simpa using hq)]
      simp only [calendarLookup]
      by_cases hqk : q.1 = k
      · rw [if_pos hqk, if_pos hqk]
      · rw [if_neg hqk, if_neg hqk]
        exact ih

theorem calendarLookup_map_eq {acc : List (String × List CalendarCell)}
    {key : String} {cell : CalendarCell}
    (hany : acc.any (fun p => p.1 == key) = true) :
    calendarLookup (acc.map (fun p =>
      if p.1 == key then (p.1, p.2 ++ [cell]) else p)) key =
      calendarLookup acc key ++ [cell] := by
  induction acc with
  | nil => simp at hany
  | cons q qs ih =>
    simp only [List.map_cons]
    by_cases hq : q.1 = key
    · rw [if_pos (show (q.1 == key) = true by simp [hq])]
      simp only [calendarLookup]
      rw [if_pos hq, if_pos hq]
    · rw [if_neg (show ¬ (q.1 == key) = true by simpa using hq)]
      simp only [calendarLookup]
      rw [if_neg hq, if_neg hq]
      apply ih
      simp only [List.any_cons, Bool.or_eq_true] at hany
      rcases hany with h | h
      · exact absurd (by simpa using h) hq
      · exact h

theorem calendarLookup_append_single {acc : List (String × List CalendarCell)}
    {key k : String} {cell : CalendarCell}
    (hnone : acc.any (fun p => p.1 == key) = false) :
    calendarLookup (acc ++ [(key, [cell])]) k =
      if k = key then calendarLookup acc k ++ [cell] else calendarLookup acc k := by
  induction acc with
  | nil =>
    simp only [List.nil_append, calendarLookup]
    by_cases hk : k = key
    · rw [if_pos hk.symm, if_pos hk]
    · rw [if_neg (fun h => hk h.symm), if_neg hk]
  | cons q qs ih =>
    simp only [List.any_cons, Bool.or_eq_false_iff] at hnone
    obtain ⟨hq, hqs⟩ := hnone
    have hqkey : q.1 ≠ key := by simpa using hq
    rw [List.cons_append]
    simp only [calendarLookup]
    by_cases hqk : q.1 = k
    · have hkkey : ¬ k = key := fun h => hqkey (hqk.trans h)
      rw [if_pos hqk, if_neg hkkey, if_pos hqk]
    · rw [if_neg hqk, if_neg hqk]
      by_cases hk : k = key
      · rw [if_pos hk, ih hqs, if_pos hk]
      · rw [if_neg hk, ih hqs, if_neg hk]

theorem calendarLookup_addCalendarCell
    (acc : List (String × List CalendarCell)) (key k : String)
    (cell : CalendarCell) :
    calendarLookup (addCalendarCell acc key cell) k =
      if k = key then calendarLookup acc k ++ [cell]
      else calendarLookup acc k := by
  cases hany : acc.any (fun p => p.1 == key) with
  | false =>
    have hred : addCalendarCell acc key cell = acc ++ [(key, [cell])] := by
      simp [addCalendarCell, hany]
    rw [hred]
    exact calendarLookup_append_single hany
  | true =>
    have hred : addCalendarCell acc key cell = acc.map (fun p =>
        if p.1 == key then (p.1, p.2 ++ [cell]) else p) := by
      simp [addCalendarCell, hany]
    rw [hred]
    by_cases hk : k = key
    · rw [hk, if_pos rfl]
      exact calendarLookup_map_eq hany
    · rw [if_neg hk]
      exact calendarLookup_map_ne hk

theorem calendarFold_go_lookup (db : JournalDB) (entries : List EntryRec)
    (acc : List (String × List CalendarCell)) (k : String) :
    calendarLookup (entries.foldl (fun acc entry =>
      match resolveEntryMood db entry with
      | none => acc
      | some (mood, moodType) =>
        addCalendarCell acc (formatYMD entry.createdAt)
          (calendarCell mood moodType)) acc) k =
    calendarLookup acc k ++ cellsOf db entries k := by
  induction entries generalizing acc with
  | nil => simp [cellsOf]
  | cons e es ih =>
    rw [List.foldl_cons]
    rcases hr : resolveEntryMood db e with _ | ⟨mood, moodType⟩
    · simp only [hr]
      rw [ih]
      simp [cellsOf, List.filterMap_cons, hr]
    · simp only [hr]
      rw [ih, calendarLookup_addCalendarCell]
      simp only [cellsOf, List.filterMap_cons, hr]
      by_cases hk : k = formatYMD e.createdAt
      · rw [if_pos hk]
        rw [show (formatYMD e.createdAt == k) = true by simp [hk]]
        simp
      · rw [if_neg hk]
        have hcond : ¬ (formatYMD e.createdAt == k) = true := by
          simpa using fun h => hk h.symm
        rw [if_neg hcond]

theorem calendarFold_skips_dangling_go (db : JournalDB) (entries : List EntryRec)
    (acc : List (String × List CalendarCell)) :
    entries.foldl (fun acc entry =>
      match resolveEntryMood db entry with
      | none => acc
      | some (mood, moodType) =>
        addCalendarCell acc (formatYMD entry.createdAt)
          (calendarCell mood moodType)) acc =
    (entries.filter (fun e => (resolveEntryMood db e).isSome)).foldl (fun acc entry =>
      match resolveEntryMood db entry with
      | none => acc
      | some (mood, moodType) =>
        addCalendarCell acc (formatYMD entry.createdAt)
          (calendarCell mood moodType)) acc := by
  induction entries generalizing acc with
  | nil => rfl
  | cons e es ih =>
    rcases hr : resolveEntryMood db e with _ | ⟨mood, moodType⟩
    · simp only [List.foldl_cons, hr, List.filter_cons, Option.isSome_none,
        Bool.false_eq_true, if_false]
      exact ih acc
    · simp only [List.foldl_cons, hr, List.filter_cons, Option.isSome_some, if_true]
      exact ih _

/-- Two ledger rows of a token-unique ledger carrying the same token are the
same row. -/
theorem token_unique_eq {l : List TokenRow} {r s : TokenRow}
    (hpw : l.Pairwise (fun a b => a.token ≠ b.token))
    (hr : r ∈ l) (hs : s ∈ l) (h : r.token = s.token) : r = s := by
  by_contra hne
  exact hpw.forall (fun a b hab => hab ∘ Eq.symm) hr hs hne h

/-! ## Claims -/

/-- C1: Refresh credentials are strictly single-use.  A refresh call with a
ledger row that is unexpired and whose owning user exists returns a fresh
access+refresh pair, removes the old row and inserts a row for the new refresh
token, after which presenting the same old string again fails 401
invalid-or-expired.  A string with no ledger row fails 401; an expired row is
deleted and fails 401; a row whose owning user no longer exists is deleted and
fails 401 user-gone. -/
theorem refresh_rotation_single_use :
    (∀ (db : AuthDB) (now : Int) (tok : Nat),
      db.ledger.find? (fun r => r.token == tok) = none →
      refresh db now (some tok) = (.failed 401 .invalidOrExpired, db)) ∧
    (∀ (db : AuthDB) (now : Int) (tok : Nat) (rec : TokenRow),
      db.ledger.find? (fun r => r.token == tok) = some rec →
      rec.expiresAt < now →
      refresh db now (some tok) =
        (.failed 401 .invalidOrExpired,
         { db with ledger := db.ledger.filter (fun r => r.rowId ≠ rec.rowId) })) ∧
    (∀ (db : AuthDB) (now : Int) (tok : Nat) (rec : TokenRow),
      db.ledger.find? (fun r => r.token == tok) = some rec →
      ¬ rec.expiresAt < now →
      db.users.find? (fun u => u.id == rec.userId) = none →
      refresh db now (some tok) =
        (.failed 401 .userGone,
         { db with ledger := db.ledger.filter (fun r => r.rowId ≠ rec.rowId) })) ∧
    (∀ (db : AuthDB) (now : Int) (tok : Nat) (rec : TokenRow) (user : UserRec),
      db.wf →
      db.ledger.find? (fun r => r.token == tok) = some rec →
      ¬ rec.expiresAt < now →
      db.users.find? (fun u => u.id == rec.userId) = some user →
      (refresh db now (some tok)).1 = .ok db.nextId (db.nextId + 1) ∧
      (∀ r ∈ (refresh db now (some tok)).2.ledger, r.token ≠ tok) ∧
      (∃ r ∈ (refresh db now (some tok)).2.ledger,
        r.token = db.nextId + 1 ∧ r.userId = user.id ∧
        r.expiresAt = now + refreshTtlMs) ∧
      (∀ now2 : Int,
        (refresh ((refresh db now (some tok)).2) now2 (some tok)).1 =
          .failed 401 .invalidOrExpired)) := by
  refine ⟨?_, ?_, ?_, ?_⟩
  · intro db now tok h
    simp [refresh, h]
  · intro db now tok rec h hexp
    simp [refresh, h, hexp]
  · intro db now tok rec h hexp hu
    simp [refresh, h, hexp, hu]
  · intro db now tok rec user hwf hfind hexp hu
    obtain ⟨hrow, htok, hbound⟩ := hwf
    have hrecmem : rec ∈ db.ledger := List.mem_of_find?_eq_some hfind
    have hrectok : rec.token = tok := by
      have := List.find?_some hfind
      simpa using this
    have hOut : refresh db now (some tok) =
        (.ok db.nextId (db.nextId + 1),
         { users := db.users
           ledger := db.ledger.filter (fun r => r.rowId ≠ rec.rowId) ++
             [{ rowId := db.nextId + 2, token := db.nextId + 1, userId := user.id
                expiresAt := now + refreshTtlMs }]
           nextId := db.nextId + 3 }) := by
      simp [refresh, hfind, hexp, hu, generateTokens]
    have hNoTok : ∀ r ∈ (refresh db now (some tok)).2.ledger, r.token ≠ tok := by
      rw [hOut]
      intro r hr
      simp only [List.mem_append, List.mem_filter, List.mem_singleton] at hr
      rcases hr with ⟨hrl, hrid⟩ | hrnew
      · intro hrtok
        have hre : r = rec := token_unique_eq htok hrl hrecmem (hrtok.trans hrectok.symm)
        rw [hre] at hrid
        simp at hrid
      · intro hrtok
        have htlt : tok < db.nextId := by
          have := (hbound rec hrecmem).2
          rwa [hrectok] at this
        rw [hrnew] at hrtok
        simp at hrtok
        omega
    refine ⟨by rw [hOut], hNoTok, ?_, ?_⟩
    · rw [hOut]
      exact ⟨_, List.mem_append_right _ (List.mem_singleton_self _), rfl, rfl, rfl⟩
    · intro now2
      have hnone : (refresh db now (some tok)).2.ledger.find?
          (fun r => r.token == tok) = none := by
        rw [List.find?_eq_none]
        intro r hr
        simpa using hNoTok r hr
      generalize (refresh db now (some tok)).2 = db2 at hnone ⊢
      simp [refresh, hnone]

/-- Witness for C1: on the concrete database the first refresh of token 5
succeeds with the fresh pair (20, 21) and the second refresh of the same
string fails 401. -/
theorem refresh_rotation_single_use_witness :
    (refresh dbC1 0 (some 5)).1 = .ok 20 21 ∧
    (refresh (refresh dbC1 0 (some 5)).2 0 (some 5)).1 =
      .failed 401 .invalidOrExpired :=
  ⟨(refresh_rotation_single_use.2.2.2 dbC1 0 5 _ _
      ⟨by decide, by decide, by decide⟩ rfl (by decide) rfl).1,
   (refresh_rotation_single_use.2.2.2 dbC1 0 5 _ _
      ⟨by decide, by decide, by decide⟩ rfl (by decide) rfl).2.2.2 0⟩

/-- Counterexample for C2: a successful password change via
`userController.changePassword` leaves the user's refresh-token ledger row in
place, and the previously issued refresh credential still succeeds on
`/auth/refresh` afterwards — the claim's "after a password change … every
refresh-token ledger row owned by that user is deleted" is false. -/
theorem change_password_keeps_refresh_tokens_cex :
    (changePassword dbC1 1 "password123" "newPassword1" "newPassword1").1 =
      .ok ∧
    ((changePassword dbC1 1 "password123" "newPassword1" "newPassword1").2).ledger =
      dbC1.ledger ∧
    (refresh ((changePassword dbC1 1 "password123" "newPassword1"
      "newPassword1").2) 0 (some 5)).1 = .ok 20 21 := by
  refine ⟨by decide, by decide, by decide⟩

/-- C2 (amended): after a password **reset**, every previously issued
refresh-token ledger row of that user is gone — any row of that user in the
post state is the newly issued one — and every previously issued refresh
credential of that user fails on `/auth/refresh`; a password **change** leaves
the ledger untouched, so refresh credentials survive it. -/
theorem reset_password_invalidates_refresh_tokens :
    (∀ (db : AuthDB) (uid : Nat) (cur newPwd confirm : String),
      ((changePassword db uid cur newPwd confirm).2).ledger = db.ledger) ∧
    (∀ (db : AuthDB) (now : Int) (hashedToken : Nat) (pwd confirm : String)
       (user : UserRec),
      db.wf →
      db.users.find? (fun u =>
        u.passwordResetToken == some hashedToken &&
        match u.passwordResetExpires with
        | some e => now < e
        | none => false) = some user →
      pwd ≠ "" → confirm ≠ "" → pwd = confirm →
      (∀ row ∈ ((resetPassword db now hashedToken pwd confirm).2).ledger,
        row.userId = user.id → row.token = db.nextId + 1) ∧
      (∀ row ∈ db.ledger, row.userId = user.id →
        ∀ now2 : Int,
          (refresh ((resetPassword db now hashedToken pwd confirm).2) now2
            (some row.token)).1 = .failed 401 .invalidOrExpired)) := by
  constructor
  · intro db uid cur newPwd confirm
    rcases h : db.users.find? (fun u => u.id == uid) with _ | user
    · simp [changePassword, h]
    · simp only [changePassword, h]
      split_ifs <;> rfl
  · intro db now hashedToken pwd confirm user hwf hfind hp hc hpc
    obtain ⟨hrow, htok, hbound⟩ := hwf
    have hOut : resetPassword db now hashedToken pwd confirm =
        (.ok db.nextId (db.nextId + 1),
         { users := db.users.map (fun u =>
             if u.id == user.id then
               { u with password := pwd
                        passwordResetToken := none
                        passwordResetExpires := none }
             else u)
           ledger := db.ledger.filter (fun r => r.userId ≠ user.id) ++
             [{ rowId := db.nextId + 2, token := db.nextId + 1, userId := user.id
                expiresAt := now + refreshTtlMs }]
           nextId := db.nextId + 3 }) := by
      simp [resetPassword, hfind, hp, hc, hpc, generateTokens]
    constructor
    · intro row hmem huid
      rw [hOut] at hmem
      simp only [List.mem_append, List.mem_filter, List.mem_singleton] at hmem
      rcases hmem with ⟨_, hne⟩ | hnew
      · exact absurd huid (by simpa using hne)
      · rw [hnew]
    · intro row hmem huid now2
      have hfindnone : ((resetPassword db now hashedToken pwd confirm).2).ledger.find?
          (fun r => r.token == row.token) = none := by
        rw [hOut, List.find?_eq_none]
        intro x hx
        simp only [List.mem_append, List.mem_filter, List.mem_singleton] at hx
        simp only [beq_iff_eq]
        rcases hx with ⟨hxm, hxne⟩ | hxnew
        · intro hteq
          have hxr : x = row := token_unique_eq htok hxm hmem hteq
          rw [hxr] at hxne
          simp [huid] at hxne
        · intro hteq
          have hlt : row.token < db.nextId := (hbound row hmem).2
          rw [hxnew] at hteq
          simp at hteq
          omega
      generalize ((resetPassword db now hashedToken pwd confirm).2) = db2 at hfindnone ⊢
      simp [refresh, hfindnone]

/-- Witness for the amended C2: on the concrete database, after resetting user
1's password with the stored reset token, the previously issued refresh token 5
fails on refresh. -/
theorem reset_password_invalidates_refresh_tokens_witness :
    (refresh ((resetPassword dbC2 0 77 "newPassword1" "newPassword1").2) 0
      (some 5)).1 = .failed 401 .invalidOrExpired :=
  (reset_password_invalidates_refresh_tokens.2 dbC2 0 77 "newPassword1"
      "newPassword1" { id := 1, email := "a@x.com", password := "password123"
                       passwordResetToken := some 77, passwordResetExpires := some 50 }
      ⟨by decide, by decide, by decide⟩ rfl (by decide) (by decide) rfl).2
    { rowId := 10, token := 5, userId := 1, expiresAt := 100 }
    (by decide) rfl 0

/-- C3: the access guard fails 401 when no bearer credential can be extracted
from the authorization header, fails 401 on a failed or expired verification,
fails 401 when the verified payload's type discriminator is not `access` (so a
refresh credential cannot be replayed as an access credential), fails 401 when
the user embedded in the payload no longer exists, and on success attaches the
freshly re-resolved user record. -/
theorem protect_access_guard :
    (∀ (verify : String → VerifyOutcome) (users : List UserRec)
       (authorization : Option String),
      extractBearer authorization = none →
      protect verify users authorization = .failed 401 .notLoggedIn) ∧
    (∀ verify users authorization token,
      extractBearer authorization = some token →
      verify token = .jsonWebTokenError →
      protect verify users authorization = .failed 401 .invalidToken) ∧
    (∀ verify users authorization token,
      extractBearer authorization = some token →
      verify token = .tokenExpiredError →
      protect verify users authorization = .failed 401 .tokenExpired) ∧
    (∀ verify users authorization token uid ty,
      extractBearer authorization = some token →
      verify token = .ok uid ty → ty ≠ "access" →
      protect verify users authorization = .failed 401 .invalidTokenType) ∧
    (∀ verify users authorization token uid,
      extractBearer authorization = some token →
      verify token = .ok uid "access" →
      users.find? (fun u => u.id == uid) = none →
      protect verify users authorization = .failed 401 .userGone) ∧
    (∀ verify users authorization token uid user,
      extractBearer authorization = some token →
      verify token = .ok uid "access" →
      users.find? (fun u => u.id == uid) = some user →
      protect verify users authorization = .granted user ∧ user.id = uid) := by
  refine ⟨?_, ?_, ?_, ?_, ?_, ?_⟩
  · intro verify users authorization h
    simp [protect, h]
  · intro verify users authorization token h hv
    simp [protect, h, hv]
  · intro verify users authorization token h hv
    simp [protect, h, hv]
  · intro verify users authorization token uid ty h hv hty
    simp [protect, h, hv, hty]
  · intro verify users authorization token uid h hv hu
    simp [protect, h, hv, hu]
  · intro verify users authorization token uid user h hv hu
    refine ⟨by simp [protect, h, hv, hu], ?_⟩
    have := List.find?_some hu
    simpa using this

/-- Witness for C3: each guard branch exercised on concrete headers with the
concrete verifier and the user store of `dbC1`. -/
theorem protect_access_guard_witness :
    protect verifyC3 dbC1.users none = .failed 401 .notLoggedIn ∧
    protect verifyC3 dbC1.users (some "Bearer bad") = .failed 401 .invalidToken ∧
    protect verifyC3 dbC1.users (some "Bearer stale") = .failed 401 .tokenExpired ∧
    protect verifyC3 dbC1.users (some "Bearer refr") = .failed 401 .invalidTokenType ∧
    protect verifyC3 [] (some "Bearer good") = .failed 401 .userGone ∧
    protect verifyC3 dbC1.users (some "Bearer good") =
      .granted { id := 1, email := "a@x.com", password := "password123" } :=
  ⟨protect_access_guard.1 verifyC3 dbC1.users none rfl,
   protect_access_guard.2.1 verifyC3 dbC1.users (some "Bearer bad") "bad"
     (by decide) rfl,
   protect_access_guard.2.2.1 verifyC3 dbC1.users (some "Bearer stale") "stale"
     (by decide) rfl,
   protect_access_guard.2.2.2.1 verifyC3 dbC1.users (some "Bearer refr") "refr" 1
     "refresh" (by decide) rfl (by decide),
   protect_access_guard.2.2.2.2.1 verifyC3 [] (some "Bearer good") "good" 1
     (by decide) rfl rfl,
   (protect_access_guard.2.2.2.2.2 verifyC3 dbC1.users (some "Bearer good") "good" 1
     { id := 1, email := "a@x.com", password := "password123" }
     (by decide) rfl rfl).1⟩

/-- Counterexample for C4: the two success responses of `forgotPassword` are
not the same — an existing email (with the external send succeeding) answers
`Token sent to email!` while a non-existent email answers the generic
`If the email exists…` message, so the response does distinguish the cases. -/
theorem forgot_password_same_response_cex :
    (forgotPassword dbC1 0 "a@x.com" 77 true).1.message = "Token sent to email!" ∧
    (forgotPassword dbC1 0 "b@x.com" 77 true).1.message =
      "If the email exists, a password reset token has been sent." ∧
    (forgotPassword dbC1 0 "a@x.com" 77 true).1 ≠
      (forgotPassword dbC1 0 "b@x.com" 77 true).1 := by
  refine ⟨by decide, by decide, by decide⟩

/-- C4 (amended): for every email, when the external email dispatch succeeds
the forgot-password reply carries HTTP 200 and body status `success` whether or
not the email has an account — but the message texts differ between the two
cases (`Token sent to email!` for an existing account, the generic sentence
otherwise), so only the status-level part of the response is
enumeration-free. -/
theorem forgot_password_status_no_enumeration :
    ∀ (db : AuthDB) (now : Int) (email : String) (resetTokenHash : Nat),
      (forgotPassword db now email resetTokenHash true).1.statusCode = 200 ∧
      (forgotPassword db now email resetTokenHash true).1.status = "success" ∧
      (forgotPassword db now email resetTokenHash true).1.message =
        (if (db.users.find? (fun u => u.email == email)).isSome then
          "Token sent to email!"
        else "If the email exists, a password reset token has been sent.") := by
  intro db now email resetTokenHash
  rcases h : db.users.find? (fun u => u.email == email) with _ | u <;>
    simp [forgotPassword, h]

/-- C5: the mood-stats aggregation returns per-type counts sorted descending by
count, its most-frequent result reports every mood type whose count equals the
maximum count, and on a window with counts A:3, B:3, C:1 both A and B are
returned as most frequent with the counts list [(A,3),(B,3),(C,1)]. -/
theorem mood_stats_sorted_with_ties :
    (∀ (db : JournalDB) (uid : Nat) (fromDate toDate : DateTime),
      (moodStats db uid fromDate toDate).Pairwise (fun a b => b.2 ≤ a.2)) ∧
    (∀ (db : JournalDB) (uid : Nat) (fromDate toDate : DateTime)
       (p : MoodTypeRec × Nat),
      p ∈ moodStats db uid fromDate toDate →
      p.2 = maxCount (moodStats db uid fromDate toDate) →
      p.1 ∈ mostFrequentMoods (moodStats db uid fromDate toDate)) ∧
    (∀ (db : JournalDB) (uid : Nat) (fromDate toDate : DateTime)
       (t : MoodTypeRec),
      t ∈ mostFrequentMoods (moodStats db uid fromDate toDate) →
      ∃ p ∈ moodStats db uid fromDate toDate,
        p.1 = t ∧ p.2 = maxCount (moodStats db uid fromDate toDate)) ∧
    (moodStats dbC5 1 winFrom winTo = [(tA, 3), (tB, 3), (tC, 1)] ∧
     mostFrequentMoods (moodStats dbC5 1 winFrom winTo) = [tA, tB]) := by
  refine ⟨?_, ?_, ?_, by decide, by decide⟩
  · intro db uid fromDate toDate
    exact sortByCountDesc_pairwise _
  · intro db uid fromDate toDate p hp hpmax
    have hpos : 0 < p.2 :=
      groupCountByType_pos _ p (mem_sortByCountDesc.mp hp)
    have hmaxpos : 0 < maxCount (moodStats db uid fromDate toDate) := by
      rw [← hpmax]; exact hpos
    unfold mostFrequentMoods
    rw [if_pos hmaxpos]
    exact List.mem_map.mpr ⟨p, List.mem_filter.mpr ⟨hp, by simp [hpmax]⟩, rfl⟩
  · intro db uid fromDate toDate t ht
    unfold mostFrequentMoods at ht
    split at ht
    · rcases List.mem_map.mp ht with ⟨p, hp, hpt⟩
      have := List.mem_filter.mp hp
      exact ⟨p, this.1, hpt, by simpa using this.2⟩
    · simp at ht

/-- Witness for C5: on the concrete A:3/B:3/C:1 window, the row (A,3) has the
maximum count and A is therefore reported among the most frequent moods. -/
theorem mood_stats_sorted_with_ties_witness :
    tA ∈ mostFrequentMoods (moodStats dbC5 1 winFrom winTo) :=
  mood_stats_sorted_with_ties.2.1 dbC5 1 winFrom winTo (tA, 3) (by decide) (by decide)

/-- C6: soft deletion stamps `deletedAt` instead of removing the record; every
default read excludes rows with a non-null `deletedAt`, so a soft-deleted entry
never appears in a default listing; it does appear when deleted entries are
explicitly requested (`withDeleted`); and after `restore` clears `deletedAt`
the entry reappears in the default listing. -/
theorem soft_delete_visibility :
    (∀ (db : List EntryRec) (entryId : Nat) (now : Int),
      (softDeleteEntry db entryId now).length = db.length ∧
      (∀ e ∈ db, e.id = entryId →
        { e with deletedAt := some now } ∈ softDeleteEntry db entryId now)) ∧
    (∀ (db : List EntryRec) (filter : EntryRec → Bool) (e : EntryRec),
      e ∈ findEntriesWith db false filter → e.deletedAt = none) ∧
    (∀ (db : JournalDB) (uid entryId : Nat) (now : Int) (e : EntryRec),
      e ∈ getEntriesFiltered
        { db with entries := softDeleteEntry db.entries entryId now } uid →
      e.id ≠ entryId) ∧
    (∀ (db : List EntryRec) (entryId : Nat) (now : Int) (e : EntryRec),
      e ∈ db → e.id = entryId →
      { e with deletedAt := some now } ∈ findDeleted (softDeleteEntry db entryId now)) ∧
    (∀ (db : JournalDB) (uid entryId : Nat) (now : Int) (e : EntryRec),
      e ∈ db.entries → e.id = entryId → e.userId = uid →
      { e with deletedAt := none } ∈ getEntriesFiltered
        { db with entries := restoreById (softDeleteEntry db.entries entryId now) entryId }
        uid) := by
  refine ⟨?_, ?_, ?_, ?_, ?_⟩
  · intro db entryId now
    refine ⟨List.length_map _ _, ?_⟩
    intro e he hid
    refine List.mem_map.mpr ⟨e, he, ?_⟩
    simp [softDeleteEntry, hid]
  · intro db filter e he
    have := (List.mem_filter.mp he).2
    simp only [Bool.false_or, Bool.and_eq_true, beq_iff_eq] at this
    exact this.1
  · intro db uid entryId now e he hid
    have hmem := (List.mem_filter.mp he).1
    have hcond := (List.mem_filter.mp he).2
    simp only [Bool.false_or, Bool.and_eq_true, beq_iff_eq] at hcond
    rcases List.mem_map.mp hmem with ⟨x, hx, hxe⟩
    by_cases hxid : x.id = entryId
    · rw [← hxe] at hcond
      simp [softDeleteEntry, hxid] at hcond
    · rw [← hxe] at hid
      simp [softDeleteEntry, hxid] at hid
  · intro db entryId now e he hid
    refine List.mem_filter.mpr ⟨?_, by simp⟩
    refine List.mem_map.mpr ⟨e, he, ?_⟩
    simp [hid]
  · intro db uid entryId now e he hid huid
    refine List.mem_filter.mpr ⟨?_, by simp [huid]⟩
    refine List.mem_map.mpr ⟨{ e with deletedAt := some now }, ?_, ?_⟩
    · exact List.mem_map.mpr ⟨e, he, by simp [hid]⟩
    · simp [hid]

/-- Witness for C6: on the concrete database, entry 101 soft-deleted and then
restored is again a member of user 1's default listing. -/
theorem soft_delete_visibility_witness :
    { mkEntryC5 1 201 with deletedAt := none } ∈ getEntriesFiltered
      { dbC5 with entries := restoreById (softDeleteEntry dbC5.entries 101 5) 101 } 1 :=
  soft_delete_visibility.2.2.2.2 dbC5 1 101 5 (mkEntryC5 1 201)
    (by decide) (by decide) (by decide)

/-- C7: the paired entry+mood write is atomic.  Any failure inside the
transactional boundary of `createEntry` or `updateEntry` returns the database
exactly unchanged (full rollback) while surfacing the error status, and a
successful write carrying a mood leaves both records visible and mutually
linked, so the entry's mood reference points at a persisted mood record. -/
theorem entry_mood_paired_write_atomic :
    (∀ (db : JournalDB) (uid : Nat) (title content category : String)
       (moodTypeId moodIntensity : Option Nat) (moodNotes : Option String)
       (moodDate : Option DateTime) (now : DateTime) (s : Nat),
      (createEntry db uid title content category moodTypeId moodIntensity
        moodNotes moodDate now).1 = .failed s →
      (createEntry db uid title content category moodTypeId moodIntensity
        moodNotes moodDate now).2 = db) ∧
    (∀ (db : JournalDB) (uid entryId : Nat) (title content category : Option String)
       (moodTypeId : Option (Option Nat)) (moodIntensity : Option Nat)
       (moodNotes : Option String) (moodDate : Option DateTime) (now : DateTime)
       (s : Nat),
      (updateEntry db uid entryId title content category moodTypeId moodIntensity
        moodNotes moodDate now).1 = .failed s →
      (updateEntry db uid entryId title content category moodTypeId moodIntensity
        moodNotes moodDate now).2 = db) ∧
    (∀ (db : JournalDB) (uid : Nat) (title content category : String) (mt : Nat)
       (moodIntensity : Option Nat) (moodNotes : Option String)
       (moodDate : Option DateTime) (now : DateTime) (eid mid : Nat),
      (createEntry db uid title content category (some mt) moodIntensity
        moodNotes moodDate now).1 = .created eid (some mid) →
      ∃ e ∈ (createEntry db uid title content category (some mt) moodIntensity
          moodNotes moodDate now).2.entries,
        e.id = eid ∧ e.mood = some mid ∧
        ∃ m ∈ (createEntry db uid title content category (some mt) moodIntensity
            moodNotes moodDate now).2.moods,
          m.id = mid ∧ m.journalEntry = some eid ∧ m.moodType = mt) ∧
    (∀ (db : JournalDB) (uid entryId : Nat) (title content category : Option String)
       (mt : Nat) (moodIntensity : Option Nat) (moodNotes : Option String)
       (moodDate : Option DateTime) (now : DateTime) (existingEntry : EntryRec),
      db.entries.find? (fun e =>
        e.id == entryId && e.userId == uid && e.deletedAt == none) = some existingEntry →
      (∀ mid, existingEntry.mood = some mid → ∃ m ∈ db.moods, m.id = mid) →
      (updateEntry db uid entryId title content category (some (some mt))
        moodIntensity moodNotes moodDate now).1 = .updated entryId →
      ∃ e ∈ (updateEntry db uid entryId title content category (some (some mt))
          moodIntensity moodNotes moodDate now).2.entries,
        e.id = entryId ∧ ∃ mid, e.mood = some mid ∧
        ∃ m ∈ (updateEntry db uid entryId title content category (some (some mt))
            moodIntensity moodNotes moodDate now).2.moods,
          m.id = mid ∧ m.journalEntry = some entryId ∧ m.moodType = mt) := by
  refine ⟨?_, ?_, ?_, ?_⟩
  · intro db uid title content category moodTypeId moodIntensity moodNotes
      moodDate now s hfail
    rcases createEntry_cases db uid title content category moodTypeId
        moodIntensity moodNotes moodDate now with ⟨s', heq⟩ | ⟨eid, mid, hok⟩
    · rw [heq]
    · rw [hok] at hfail
      simp at hfail
  · intro db uid entryId title content category moodTypeId moodIntensity
      moodNotes moodDate now s hfail
    rcases updateEntry_cases db uid entryId title content category moodTypeId
        moodIntensity moodNotes moodDate now with ⟨s', heq⟩ | hok
    · rw [heq]
    · rw [hok] at hfail
      simp at hfail
  · intro db uid title content category mt moodIntensity moodNotes moodDate now
      eid mid hok
    obtain ⟨he, hmi, hOut⟩ := createEntry_success_shape db uid title content
      category mt moodIntensity moodNotes moodDate now eid mid hok
    subst he
    subst hmi
    rw [hOut]
    refine ⟨_, List.mem_append_right _ (List.mem_singleton_self _), rfl, rfl, ?_⟩
    exact ⟨_, List.mem_append_right _ (List.mem_singleton_self _), rfl, rfl, rfl⟩
  · intro db uid entryId title content category mt moodIntensity moodNotes
      moodDate now existingEntry hfind hres hok
    exact updateEntry_success_mood_link db uid entryId title content category mt
      moodIntensity moodNotes moodDate now existingEntry hfind hres hok

/-- Witness for C7: a concrete create with an invalid category fails and leaves
the database untouched, while a concrete valid create with a mood yields the
mutually linked entry 1000 and mood 1001. -/
theorem entry_mood_paired_write_atomic_witness :
    (createEntry dbC5 1 "T" "C" "NOPE" (some 1) none none none winFrom).2 = dbC5 ∧
    ∃ e ∈ (createEntry dbC5 1 "T" "C" "work" (some 1) none none none
        winFrom).2.entries,
      e.id = 1000 ∧ e.mood = some 1001 ∧
      ∃ m ∈ (createEntry dbC5 1 "T" "C" "work" (some 1) none none none
          winFrom).2.moods,
        m.id = 1001 ∧ m.journalEntry = some 1000 ∧ m.moodType = 1 :=
  ⟨entry_mood_paired_write_atomic.1 dbC5 1 "T" "C" "NOPE" (some 1) none none none
      winFrom 400 (by decide),
   entry_mood_paired_write_atomic.2.2.1 dbC5 1 "T" "C" "work" 1 none none none
      winFrom 1000 1001 (by decide)⟩

/-- C8: a successful creation of an entry with a mood creates exactly one Mood
record, the link is bidirectional (the entry's `mood` equals the mood's id and
the mood's `journalEntry` equals the entry's id), and deleting that entry
removes the linked Mood record from the store. -/
theorem entry_mood_link_lifecycle :
    (∀ (db : JournalDB) (uid : Nat) (title content category : String) (mt : Nat)
       (moodIntensity : Option Nat) (moodNotes : Option String)
       (moodDate : Option DateTime) (now : DateTime) (eid mid : Nat),
      (createEntry db uid title content category (some mt) moodIntensity
        moodNotes moodDate now).1 = .created eid (some mid) →
      (createEntry db uid title content category (some mt) moodIntensity
        moodNotes moodDate now).2.moods.length = db.moods.length + 1 ∧
      (∃ e ∈ (createEntry db uid title content category (some mt) moodIntensity
          moodNotes moodDate now).2.entries, e.id = eid ∧ e.mood = some mid) ∧
      (∃ m ∈ (createEntry db uid title content category (some mt) moodIntensity
          moodNotes moodDate now).2.moods, m.id = mid ∧ m.journalEntry = some eid)) ∧
    (∀ (db : JournalDB) (uid entryId : Nat) (now : Int) (entry : EntryRec),
      db.entries.find? (fun e =>
        e.id == entryId && e.userId == uid && e.deletedAt == none) = some entry →
      ∀ mid, entry.mood = some mid →
      (deleteEntry db uid entryId now).1 = .noContent ∧
      (deleteEntry db uid entryId now).2.moods =
        db.moods.filter (fun m => m.id ≠ mid) ∧
      (∀ m ∈ (deleteEntry db uid entryId now).2.moods, m.id ≠ mid)) := by
  constructor
  · intro db uid title content category mt moodIntensity moodNotes moodDate now
      eid mid hok
    obtain ⟨he, hmi, hOut⟩ := createEntry_success_shape db uid title content
      category mt moodIntensity moodNotes moodDate now eid mid hok
    subst he
    subst hmi
    rw [hOut]
    refine ⟨by simp, ?_, ?_⟩
    · exact ⟨_, List.mem_append_right _ (List.mem_singleton_self _), rfl, rfl⟩
    · exact ⟨_, List.mem_append_right _ (List.mem_singleton_self _), rfl, rfl⟩
  · intro db uid entryId now entry hfind mid hm
    have h2 : (deleteEntry db uid entryId now).2.moods =
        db.moods.filter (fun m => m.id ≠ mid) := by
      simp [deleteEntry, hfind, hm]
    refine ⟨by simp [deleteEntry, hfind], h2, ?_⟩
    intro m hmems
    rw [h2] at hmems
    simpa using (List.mem_filter.mp hmems).2

/-- Witness for C8: the concrete create of C5's fixture yields exactly one new
mood, and deleting entry 101 (linked to mood 201) removes mood 201. -/
theorem entry_mood_link_lifecycle_witness :
    (createEntry dbC5 1 "T" "C" "work" (some 1) none none none
      winFrom).2.moods.length = dbC5.moods.length + 1 ∧
    (∀ m ∈ (deleteEntry dbC5 1 101 5).2.moods, m.id ≠ 201) :=
  ⟨(entry_mood_link_lifecycle.1 dbC5 1 "T" "C" "work" 1 none none none winFrom
      1000 1001 (by decide)).1,
   (entry_mood_link_lifecycle.2 dbC5 1 101 5 (mkEntryC5 1 201) (by decide) 201
      (by decide)).2.2⟩

/-- C9: the mood calendar groups a user's moods under keys formatted
`yyyy-MM-dd` from the owning entry's creation date — the list under day `k` is
exactly the resolvable entries created on day `k`, so two entries created the
same day share one key and the mood's own date field plays no role; entries
whose mood or mood type fails to resolve are skipped by the calendar and by the
frequency counts instead of causing an error. -/
theorem mood_calendar_keyed_by_entry_creation_date :
    (∀ (db : JournalDB) (uid year month : Nat) (k : String),
      calendarLookup (getMoodCalendar db uid year month) k =
        cellsOf db (sortByCreatedAt (findEntriesWith db.entries false (fun e =>
          e.userId == uid &&
          DateTime.le { year := year, month := month, day := 1, minuteOfDay := 0 }
            e.createdAt &&
          DateTime.le e.createdAt
            { year := year, month := month, day := daysInMonth year month
              minuteOfDay := 1439 } &&
          ¬ e.mood == none))) k) ∧
    (∀ (db : JournalDB) (entries : List EntryRec),
      calendarFold db entries =
        calendarFold db (entries.filter (fun e => (resolveEntryMood db e).isSome))) ∧
    (∀ (db : JournalDB) (uid : Nat) (fromDate toDate : DateTime) (e : EntryRec),
      resolveEntryMood db e = none →
      moodStats { db with entries := e :: db.entries } uid fromDate toDate =
        moodStats db uid fromDate toDate) ∧
    (getMoodCalendar dbC9 1 2024 3 =
      [("2024-03-05", [calendarCell mC9a tA, calendarCell mC9b tB])] ∧
     moodStats dbC9 1 winFrom winTo = [(tA, 1), (tB, 1)]) := by
  refine ⟨?_, ?_, ?_, by decide, by decide⟩
  · intro db uid year month k
    unfold getMoodCalendar calendarFold
    rw [calendarFold_go_lookup]
    rfl
  · intro db entries
    unfold calendarFold
    exact calendarFold_skips_dangling_go db entries []
  · intro db uid fromDate toDate e hr
    have hr' : resolveEntryMood { db with entries := e :: db.entries } e = none := hr
    unfold moodStats moodStatsEntries
    simp only [List.filter_cons]
    by_cases hp : (e.userId == uid && DateTime.le fromDate e.createdAt &&
        DateTime.le e.createdAt toDate && ¬ e.mood == none) = true
    · rw [if_pos hp, List.filterMap_cons]
      have hmap : Option.map Prod.snd
          (resolveEntryMood { db with entries := e :: db.entries } e) = none := by
        rw [hr']
        rfl
      rw [hmap]
      rfl
    · rw [if_neg hp]
      rfl

/-- Witness for C9: adding one more dangling entry to the fixture leaves the
frequency counts unchanged. -/
theorem mood_calendar_keyed_by_entry_creation_date_witness :
    moodStats { dbC9 with entries :=
      { id := 304, userId := 1, title := "T4", content := "C4", category := "WORK"
        mood := some 998
        createdAt := { year := 2024, month := 3, day := 7, minuteOfDay := 0 } } ::
        dbC9.entries } 1 winFrom winTo = moodStats dbC9 1 winFrom winTo :=
  mood_calendar_keyed_by_entry_creation_date.2.2.1 dbC9 1 winFrom winTo
    { id := 304, userId := 1, title := "T4", content := "C4", category := "WORK"
      mood := some 998
      createdAt := { year := 2024, month := 3, day := 7, minuteOfDay := 0 } }
    (by decide)

/-- C10: every user whose email is not the hardcoded literal receives exactly
the base category list and exactly the stored mood-type catalog, while the one
hardcoded email receives the base list plus `BISRAT` and the catalog plus one
synthesized `Bisrat` mood type that is not part of the stored catalog. -/
theorem special_user_catalog_extension :
    (∀ email : String, email ≠ "betsi2426@gmail.com" →
      getEntryCategories email = ["FAMILY", "RELATIONSHIP", "MYSELF", "WORK", "OTHER"]) ∧
    getEntryCategories "betsi2426@gmail.com" =
      ["FAMILY", "RELATIONSHIP", "MYSELF", "WORK", "OTHER", "BISRAT"] ∧
    (∀ (catalog : List MoodTypeRec) (email : String) (freshId : Nat),
      email ≠ "betsi2426@gmail.com" → getMoodTypes catalog email freshId = catalog) ∧
    (∀ (catalog : List MoodTypeRec) (freshId : Nat),
      getMoodTypes catalog "betsi2426@gmail.com" freshId =
        catalog ++ [bisratMoodType freshId] ∧
      (bisratMoodType freshId).name = "Bisrat" ∧
      ((∀ t ∈ catalog, t.name ≠ "Bisrat") → bisratMoodType freshId ∉ catalog)) := by
  refine ⟨?_, by decide, ?_, ?_⟩
  · intro email h
    simp [getEntryCategories, h]
  · intro catalog email freshId h
    simp [getMoodTypes, h]
  · intro catalog freshId
    refine ⟨by simp [getMoodTypes], rfl, ?_⟩
    intro hnames hmem
    exact hnames _ hmem rfl

/-- Witness for C10: a non-special user gets the plain base list and catalog;
the special email gets the `Bisrat` extension on the concrete catalog. -/
theorem special_user_catalog_extension_witness :
    getEntryCategories "a@x.com" = ["FAMILY", "RELATIONSHIP", "MYSELF", "WORK", "OTHER"] ∧
    getMoodTypes [tA, tB, tC] "a@x.com" 9 = [tA, tB, tC] ∧
    getMoodTypes [tA, tB, tC] "betsi2426@gmail.com" 9 =
      [tA, tB, tC] ++ [bisratMoodType 9] ∧
    bisratMoodType 9 ∉ [tA, tB, tC] :=
  ⟨special_user_catalog_extension.1 "a@x.com" (by decide),
   special_user_catalog_extension.2.2.1 [tA, tB, tC] "a@x.com" 9 (by decide),
   (special_user_catalog_extension.2.2.2 [tA, tB, tC] 9).1,
   (special_user_catalog_extension.2.2.2 [tA, tB, tC] 9).2.2 (by decide)⟩

end Vent
